import Mathlib

/-!
Verification development for the Notion site proxy worker (`src/worker/worker.js`).

The worker is a reverse proxy: it resolves a per-domain configuration
(`getDomainConfig` / `processConfigurationObject`), routes each inbound request
(`fetchAndApply`) to one of several handlers (CORS preflight, robots, sitemap,
health, JS-asset rewrite, API passthrough, slug redirection, unknown-page-id
redirection, HTML content), and generates sitemap/robots documents.

This file is a shallow embedding of those functions.  JavaScript values that can
appear in a parsed configuration object are modelled by `JVal`; JS objects used
as string-keyed maps are modelled by association lists with unique keys, with
`objGet`/`objSet` for property access and assignment.  Network-dependent
handlers (JS assets, API passthrough, HTML content) are modelled as router
outcomes carrying the data the worker itself determines (the outbound request
shape), since their responses depend on the upstream.
-/

namespace NotionWorker

/-- A JavaScript value that can appear as a property value of a configuration
object obtained from `JSON.parse`.  `str` is a JSON string; `num` an (integral)
JSON number; `boolean` a JSON boolean; `null` the JSON null; `objLike` a JSON
object or array, carrying its JS string conversion as data (for example the
empty array `[]` converts to `""`, and a plain object to `"[object Object]"`).
All JS objects and arrays are truthy. -/
inductive JVal where
  | str (s : String)
  | num (n : Int)
  | boolean (b : Bool)
  | null
  | objLike (display : String)
deriving DecidableEq, Repr

/-- JS truthiness of a `JVal`: empty string, zero, `false` and `null` are
falsy; every object or array is truthy. -/
def JVal.truthy : JVal → Bool
  | .str s => !s.isEmpty
  | .num n => n != 0
  | .boolean b => b
  | .null => false
  | .objLike _ => true

/-- Embeds the JS test `typeof v === 'string'`. -/
def JVal.isString : JVal → Bool
  | .str _ => true
  | _ => false

/-- JS string conversion of a `JVal`, as performed by template-literal
interpolation or property-key coercion. -/
def JVal.toStr : JVal → String
  | .str s => s
  | .num n => toString n
  | .boolean b => cond b "true" "false"
  | .null => "null"
  | .objLike d => d

/-- Property read on a JS object modelled as an association list:
`o[k]` is `some v` when the key is present and `none` (JS `undefined`)
otherwise. -/
def objGet {α : Type} : List (String × α) → String → Option α
  | [], _ => none
  | e :: t, k => if e.1 = k then some e.2 else objGet t k

/-- Property assignment `o[k] = v` on a JS object modelled as an association
list with unique keys: an existing key keeps its position and gets the new
value, a new key is appended in insertion order. -/
def objSet {α : Type} : List (String × α) → String → α → List (String × α)
  | [], k, v => [(k, v)]
  | e :: t, k, v => if e.1 = k then (k, v) :: t else e :: objSet t k v

/-- A raw per-domain configuration, as produced by `JSON.parse` on the stored
configuration bytes with `MY_DOMAIN` overwritten by the normalized hostname.
`SLUG_TO_PAGE` is the parsed object's entry list in JS enumeration order
(JS object keys are unique, hence the `Nodup` field). -/
structure Config where
  MY_DOMAIN : String
  SLUG_TO_PAGE : List (String × JVal)
  keys_nodup : (SLUG_TO_PAGE.map Prod.fst).Nodup

/-- The three derived fields that `processConfigurationObject` adds to a
configuration object: the reverse mapping `PAGE_TO_SLUG` and the parallel
`slugs`/`pages` arrays. -/
structure DerivedMaps where
  PAGE_TO_SLUG : List (String × String)
  slugs : List String
  pages : List String
deriving DecidableEq, Repr

/-- The filter applied by `processConfigurationObject` to each entry:
`pageId && typeof pageId === 'string'` (truthy and a string, i.e. a non-empty
string). -/
def isValidPageEntry (v : JVal) : Bool := v.truthy && v.isString

/-- The `forEach` callback body of `processConfigurationObject`: for an entry
`(slug, pageId)` whose value is a truthy string, push the slug onto `slugs`,
the page id onto `pages`, and assign `PAGE_TO_SLUG[pageId] = slug`. -/
def processEntry (acc : DerivedMaps) (e : String × JVal) : DerivedMaps :=
  if isValidPageEntry e.2 then
    { PAGE_TO_SLUG := objSet acc.PAGE_TO_SLUG e.2.toStr e.1,
      slugs := acc.slugs ++ [e.1],
      pages := acc.pages ++ [e.2.toStr] }
  else acc

/-- Embeds `processConfigurationObject`: iterates over
`Object.entries(config.SLUG_TO_PAGE)` in order, applying `processEntry` to
initially empty derived fields. -/
def processConfigurationObject (slugToPage : List (String × JVal)) : DerivedMaps :=
  slugToPage.foldl processEntry ⟨[], [], []⟩

/-- The derived `config.pages` array of a configuration. -/
def Config.pagesOf (c : Config) : List String :=
  (processConfigurationObject c.SLUG_TO_PAGE).pages

/-- The derived `config.slugs` array of a configuration. -/
def Config.slugsOf (c : Config) : List String :=
  (processConfigurationObject c.SLUG_TO_PAGE).slugs

/-- The derived `config.PAGE_TO_SLUG` object of a configuration. -/
def Config.pageToSlugOf (c : Config) : List (String × String) :=
  (processConfigurationObject c.SLUG_TO_PAGE).PAGE_TO_SLUG

/-! String helpers embedding the JS string operations the worker uses. -/

/-- Embeds `s.slice(1)`: the string without its first character. -/
def jsSlice1 (s : String) : String := ⟨s.data.drop 1⟩

/-- Embeds `s.startsWith(p)`. -/
def jsStartsWith (s p : String) : Bool := p.data.isPrefixOf s.data

/-- Embeds `s.endsWith(p)`. -/
def jsEndsWith (s p : String) : Bool := p.data.isSuffixOf s.data

/-- Whether `needle` occurs as a contiguous run inside the second list. -/
def listOccurs (needle : List Char) : List Char → Bool
  | [] => needle.isEmpty
  | c :: t => needle.isPrefixOf (c :: t) || listOccurs needle t

/-- Embeds `s.includes(sub)`: substring containment. -/
def jsIncludes (s sub : String) : Bool := listOccurs sub.data s.data

/-- A character matched by the regex character class `[0-9a-f]` under the `i`
flag, i.e. an ASCII hex digit of either case (codepoints 48–57, 97–102,
65–70). -/
def isJsHexChar (c : Char) : Bool :=
  (48 ≤ c.toNat && c.toNat ≤ 57) || (97 ≤ c.toNat && c.toNat ≤ 102) ||
    (65 ≤ c.toNat && c.toNat ≤ 70)

/-- Embeds the test `/^[0-9a-f]{32}$/i.test(s)` (the `notionPageIdPattern`
check in `handleUnknownPageRedirection`). -/
def isHex32 (s : String) : Bool :=
  s.data.length == 32 && s.data.all isJsHexChar

/-- Embeds `hostname.replace(/^www\., '')`: strips one leading `www.`. -/
def stripWww (h : String) : String :=
  if jsStartsWith h "www." then ⟨h.data.drop 4⟩ else h

/-- Two ASCII characters that are equal up to letter case: either identical, or
an upper/lower-case pair of the same Latin letter (codepoints differing by 32,
with the smaller one in the upper-case range 65–90). -/
def charCaseEq (a b : Char) : Bool :=
  a == b || (a.toNat + 32 == b.toNat && 65 ≤ a.toNat && a.toNat ≤ 90) ||
    (b.toNat + 32 == a.toNat && 65 ≤ b.toNat && b.toNat ≤ 90)

/-- Two character lists equal up to ASCII letter case, position by position. -/
def eqIgnoreCase : List Char → List Char → Bool
  | [], [] => true
  | a :: as, b :: bs => charCaseEq a b && eqIgnoreCase as bs
  | _, _ => false

/-! The worker's response model. -/

/-- An HTTP response fully determined by the worker itself (no upstream
fetch): status, optional body, and headers. -/
structure HttpResponse where
  status : Nat
  body : Option String
  headers : List (String × String)
deriving DecidableEq, Repr

/-- Embeds `Response.redirect(url, 301)`. -/
def redirectResponse (url : String) : HttpResponse :=
  { status := 301, body := none, headers := [("Location", url)] }

/-- The fixed permissive CORS header set (`corsHeaders` in the worker). -/
def corsHeaders : List (String × String) :=
  [("Access-Control-Allow-Origin", "*"),
   ("Access-Control-Allow-Methods", "GET, HEAD, POST, PUT, OPTIONS"),
   ("Access-Control-Allow-Headers", "Content-Type, Authorization")]

/-- The fixed 200 `OK` health response. -/
def healthResponse : HttpResponse :=
  { status := 200, body := some "OK", headers := [("Content-Type", "text/plain")] }

/-- The 404 response for an unconfigured hostname. -/
def notConfiguredResponse (hostname : String) : HttpResponse :=
  { status := 404,
    body := some ("Domain \"" ++ hostname ++ "\" not configured"),
    headers := [("Content-Type", "text/plain")] }

/-- The browser-like user-agent header value sent on API passthrough. -/
def chromeUserAgent : String :=
  "Mozilla/5.0 (Macintosh; Intel Mac OS X 10_15_7) AppleWebKit/537.36 (KHTML, like Gecko) Chrome/91.0.4472.124 Safari/537.36"

/-- The outbound request that `handleApiRequests` issues to the upstream
origin: its method, the two fixed headers, and whether the original request
body is forwarded. -/
structure ApiOutbound where
  method : String
  contentType : String
  userAgent : String
  forwardsBody : Bool
deriving DecidableEq, Repr

/-- The router's outcome for one inbound request.  `response` is a response the
worker computes entirely by itself (including all redirects); the other three
outcomes perform an upstream fetch whose response depends on the network, so
they carry only the data the worker determines (the upstream-facing path, and
for the API case the outbound request shape). -/
inductive RouterResult where
  | response (r : HttpResponse)
  | fetchJs (path : String)
  | fetchApi (outbound : ApiOutbound)
  | fetchHtml (path : String)
deriving DecidableEq, Repr

/-! The worker's handlers and router. -/

/-- Embeds `handleCorsPreflightRequest`: reads the three preflight headers
(`none` models a missing header, JS `null`) and answers 204 with the permissive
CORS headers when all three are truthy, else 405 with an `Allow` header. -/
def handleCorsPreflightRequest (origin method headers : Option String) : HttpResponse :=
  if (match origin with | some s => !s.isEmpty | none => false) &&
     (match method with | some s => !s.isEmpty | none => false) &&
     (match headers with | some s => !s.isEmpty | none => false) then
    { status := 204, body := none, headers := corsHeaders }
  else
    { status := 405, body := none, headers := [("Allow", "GET, HEAD, POST, PUT, OPTIONS")] }

/-- Embeds `generateSitemap`: one `<url>` element per slug (the JS code first
filters out `undefined` array holes, which cannot occur in the derived `slugs`
array, so the filter predicate is constantly true), joined by newlines inside
the fixed XML envelope. -/
def generateSitemap (MY_DOMAIN : String) (slugs : List String) : String :=
  let urls := (slugs.filter (fun _slug => true)).map (fun slug =>
    "<url><loc>" ++
      (if slug = "" then "https://" ++ MY_DOMAIN ++ "/"
       else "https://" ++ MY_DOMAIN ++ "/" ++ slug) ++
      "</loc><changefreq>weekly</changefreq><priority>0.8</priority></url>")
  "<?xml version=\"1.0\" encoding=\"UTF-8\"?>\n<urlset xmlns=\"http://www.sitemaps.org/schemas/sitemap/0.9\">\n" ++
    String.intercalate "\n" urls ++ "\n</urlset>"

/-- Embeds `generateRobotsTxt` (a `Response` with default status 200). -/
def generateRobotsTxt (config : Config) : HttpResponse :=
  { status := 200,
    body := some ("User-agent: *\nAllow: /\n\nSitemap: https://" ++ config.MY_DOMAIN ++ "/sitemap.xml"),
    headers := [("Content-Type", "text/plain")] }

/-- Embeds `generateSitemapResponse`. -/
def generateSitemapResponse (config : Config) : HttpResponse :=
  { status := 200,
    body := some (generateSitemap config.MY_DOMAIN config.slugsOf),
    headers := [("Content-Type", "application/xml")] }

/-- Embeds `handleApiRequests`: the outbound upstream request is always a POST
with the fixed content type and user agent, and forwards the original request
body unless the target path contains `/api/v3/getPublicPageData`.  The
upstream path equals the inbound path (only the hostname was rewritten). -/
def handleApiRequests (notionPath : String) : ApiOutbound :=
  { method := "POST",
    contentType := "application/json;charset=UTF-8",
    userAgent := chromeUserAgent,
    forwardsBody := !(jsIncludes notionPath "/api/v3/getPublicPageData") }

/-- Embeds `handleSlugRedirection`: looks the path (minus its leading slash) up
in the raw `SLUG_TO_PAGE` object; on a truthy value it answers a 301 redirect —
to the domain root for the root slug, else to `/<value>` (the value coerced to
a string) — and otherwise yields nothing. -/
def handleSlugRedirection (path : String) (config : Config) : Option HttpResponse :=
  let slug := jsSlice1 path
  match objGet config.SLUG_TO_PAGE slug with
  | some pageId =>
      if pageId.truthy then
        some (redirectResponse
          (if slug = "" then "https://" ++ config.MY_DOMAIN ++ "/"
           else "https://" ++ config.MY_DOMAIN ++ "/" ++ pageId.toStr))
      else none
  | none => none

/-- Embeds `handleUnknownPageRedirection`: a path segment matching the
case-insensitive 32-hex-digit pattern that is absent from the derived `pages`
array (a case-sensitive membership test) is 301-redirected to the domain
root. -/
def handleUnknownPageRedirection (path : String) (config : Config) : Option HttpResponse :=
  let pathSegment := jsSlice1 path
  if isHex32 pathSegment && !(config.pagesOf.contains pathSegment) then
    some (redirectResponse ("https://" ++ config.MY_DOMAIN ++ "/"))
  else none

/-- Embeds `fetchAndApply`, the router.  `hostname` and `path` come from the
request URL, the three `Option String` arguments are the CORS preflight
headers, and `cfg?` is the configuration resolution outcome for the
(www-stripped) hostname, `none` when `getDomainConfig` yielded no
configuration.  The branches appear in source order: missing configuration,
OPTIONS, robots, sitemap, health, JS assets, API, slug redirection,
unknown-page redirection, HTML content. -/
def fetchAndApply (hostname method path : String)
    (origin acrMethod acrHeaders : Option String) (cfg? : Option Config) : RouterResult :=
  match cfg? with
  | none => .response (notConfiguredResponse (stripWww hostname))
  | some config =>
    if method = "OPTIONS" then
      .response (handleCorsPreflightRequest origin acrMethod acrHeaders)
    else if path = "/robots.txt" then .response (generateRobotsTxt config)
    else if path = "/sitemap.xml" then .response (generateSitemapResponse config)
    else if path = "/health" ∨ path = "/_health" then .response healthResponse
    else if jsStartsWith path "/app" && jsEndsWith path ".js" then .fetchJs path
    else if jsStartsWith path "/api" then .fetchApi (handleApiRequests path)
    else
      match handleSlugRedirection path config with
      | some r => .response r
      | none =>
        match handleUnknownPageRedirection path config with
        | some r => .response r
        | none => .fetchHtml path

/-- A parsed configuration object as `JSON.parse` can deliver it: the
`SLUG_TO_PAGE` entry list, with unique keys as in any JS object. -/
structure SlugMap where
  entries : List (String × JVal)
  entries_nodup : (entries.map Prod.fst).Nodup

/-- Embeds `getDomainConfig` (with `manualConfig` left `undefined`, as in the
source).  `parse` stands for `JSON.parse` on the stored bytes (`none` models a
parse failure, which the `catch` turns into `null`), `store` for the
`DOMAINS_CONFIG` KV lookup (`none` models an absent key), and `cache` for the
`domainConfigCache` map.  Returns the resolution outcome together with the
cache state afterwards.  An empty stored string is falsy in JS and takes the
same early-return branch as an absent key. -/
def getDomainConfig (parse : String → Option SlugMap) (store : String → Option String)
    (cache : List (String × Config)) (hostname : String) :
    Option Config × List (String × Config) :=
  let cleanHostname := stripWww hostname
  match objGet cache cleanHostname with
  | some c => (some c, cache)
  | none =>
    match store cleanHostname with
    | none => (none, cache)
    | some raw =>
      if raw = "" then (none, cache)
      else
        match parse raw with
        | none => (none, cache)
        | some sm =>
          let config : Config := ⟨cleanHostname, sm.entries, sm.entries_nodup⟩
          (some config, objSet cache cleanHostname config)

/-! Lemmas about JS-object reads and writes. -/

theorem objGet_objSet {α : Type} (o : List (String × α)) (k : String) (v : α) (k' : String) :
    objGet (objSet o k v) k' = if k' = k then some v else objGet o k' := by
  induction o with
  | nil =>
      by_cases h : k' = k
      · simp [objSet, objGet, h]
      · simp [objSet, objGet, h, Ne.symm h]
  | cons e t ih =>
      by_cases he : e.1 = k
      · by_cases h : k' = k
        · simp [objSet, objGet, he, h]
        · simp [objSet, objGet, he, h, Ne.symm h]
      · by_cases h : k' = k
        · subst h
          simp [objSet, objGet, he, ih]
        · simp [objSet, objGet, he, h, ih]

theorem objGet_mem {α : Type} (l : List (String × α)) (k : String) (v : α)
    (h : objGet l k = some v) : (k, v) ∈ l := by
  induction l with
  | nil => simp [objGet] at h
  | cons e t ih =>
      simp only [objGet] at h
      by_cases he : e.1 = k
      · rw [if_pos he] at h
        have : e = (k, v) := by
          cases e with
          | mk a b => cases he; cases Option.some.inj h; rfl
        simp [this]
      · rw [if_neg he] at h
        exact List.mem_cons_of_mem e (ih h)

theorem objGet_of_mem_nodup {α : Type} (l : List (String × α)) (k : String) (v : α)
    (hmem : (k, v) ∈ l) (hnd : (l.map Prod.fst).Nodup) : objGet l k = some v := by
  induction l with
  | nil => simp at hmem
  | cons e t ih =>
      rw [List.map_cons, List.nodup_cons] at hnd
      rcases List.mem_cons.mp hmem with he | ht
      · subst he; simp [objGet]
      · have hk : k ∈ t.map Prod.fst := List.mem_map.mpr ⟨(k, v), ht, rfl⟩
        have hne : e.1 ≠ k := fun hh => hnd.1 (hh ▸ hk)
        simp only [objGet, if_neg hne]
        exact ih ht hnd.2

/-! Characterization of `processConfigurationObject` as filter, map and fold
over the valid (truthy-string-valued) entries. -/

/-- The entries of `SLUG_TO_PAGE` that pass the `processConfigurationObject`
filter. -/
def validEntries (m : List (String × JVal)) : List (String × JVal) :=
  m.filter (fun e => isValidPageEntry e.2)

/-- The accumulation of `PAGE_TO_SLUG` assignments over a list of entries. -/
def pageToSlugFold (o : List (String × String)) (l : List (String × JVal)) :
    List (String × String) :=
  l.foldl (fun o e => objSet o e.2.toStr e.1) o

theorem foldl_processEntry (m : List (String × JVal)) (acc : DerivedMaps) :
    m.foldl processEntry acc =
      { PAGE_TO_SLUG := pageToSlugFold acc.PAGE_TO_SLUG (validEntries m),
        slugs := acc.slugs ++ (validEntries m).map Prod.fst,
        pages := acc.pages ++ (validEntries m).map (fun e => e.2.toStr) } := by
  induction m generalizing acc with
  | nil => simp [validEntries, pageToSlugFold]
  | cons e t ih =>
      rw [List.foldl_cons, ih]
      by_cases hv : isValidPageEntry e.2 = true
      · simp [validEntries, pageToSlugFold, processEntry, hv, List.filter_cons]
      · simp [validEntries, pageToSlugFold, processEntry, hv, List.filter_cons,
          Bool.eq_false_iff.mpr hv]

theorem processConfigurationObject_eq (m : List (String × JVal)) :
    processConfigurationObject m =
      { PAGE_TO_SLUG := pageToSlugFold [] (validEntries m),
        slugs := (validEntries m).map Prod.fst,
        pages := (validEntries m).map (fun e => e.2.toStr) } := by
  have h := foldl_processEntry m ⟨[], [], []⟩
  simpa [processConfigurationObject] using h

theorem isValidPageEntry_str (v : JVal) (h : isValidPageEntry v = true) :
    v = .str v.toStr ∧ v.toStr ≠ "" := by
  cases v with
  | str s =>
      refine ⟨rfl, fun hs => ?_⟩
      rw [show JVal.toStr (.str s) = s from rfl] at hs
      rw [hs] at h
      exact absurd h (by decide)
  | num n => simp [isValidPageEntry, JVal.isString] at h
  | boolean b => simp [isValidPageEntry, JVal.isString] at h
  | null => simp [isValidPageEntry, JVal.isString] at h
  | objLike d => simp [isValidPageEntry, JVal.isString] at h

theorem isValidPageEntry_of_str (s : String) (h : s ≠ "") :
    isValidPageEntry (.str s) = true := by
  have he : s.isEmpty = false := by
    cases hh : s.isEmpty
    · rfl
    · exact absurd ((String.isEmpty_iff s).mp hh) h
  simp [isValidPageEntry, JVal.truthy, JVal.isString, he]

theorem pageToSlugFold_no_key (l : List (String × JVal)) (o : List (String × String))
    (p : String) (h : ∀ e ∈ l, e.2.toStr ≠ p) :
    objGet (pageToSlugFold o l) p = objGet o p := by
  induction l generalizing o with
  | nil => rfl
  | cons e t ih =>
      show objGet (pageToSlugFold (objSet o e.2.toStr e.1) t) p = objGet o p
      rw [ih _ (fun e' he' => h e' (List.mem_cons_of_mem e he')), objGet_objSet,
        if_neg (fun hh => h e (List.mem_cons_self e t) hh.symm)]

theorem pageToSlugFold_sound (l : List (String × JVal)) (o : List (String × String))
    (p s : String) (h : objGet (pageToSlugFold o l) p = some s) :
    (∃ v, (s, v) ∈ l ∧ v.toStr = p) ∨ objGet o p = some s := by
  induction l generalizing o with
  | nil => exact Or.inr h
  | cons e t ih =>
      rcases ih (objSet o e.2.toStr e.1) h with hl | hr
      · rcases hl with ⟨v, hv, hp⟩
        exact Or.inl ⟨v, List.mem_cons_of_mem e hv, hp⟩
      · rw [objGet_objSet] at hr
        by_cases hk : p = e.2.toStr
        · rw [if_pos hk] at hr
          cases Option.some.inj hr
          exact Or.inl ⟨e.2, by cases e; exact List.mem_cons_self _ _, hk.symm⟩
        · rw [if_neg hk] at hr
          exact Or.inr hr

theorem pageToSlugFold_complete (l : List (String × JVal)) (o : List (String × String))
    (s : String) (v : JVal) (p : String) (hmem : (s, v) ∈ l) (hkey : v.toStr = p)
    (hnd : (l.map (fun e => e.2.toStr)).Nodup) :
    objGet (pageToSlugFold o l) p = some s := by
  induction l generalizing o with
  | nil => simp at hmem
  | cons e t ih =>
      rw [List.map_cons, List.nodup_cons] at hnd
      rcases List.mem_cons.mp hmem with he | ht
      · have hs : e.1 = s := by rw [← he]
        have hv : e.2 = v := by rw [← he]
        have hkeys : ∀ e' ∈ t, e'.2.toStr ≠ p := by
          intro e' he' hp
          exact hnd.1 (by rw [hv, hkey]; exact List.mem_map.mpr ⟨e', he', hp⟩)
        show objGet (pageToSlugFold (objSet o e.2.toStr e.1) t) p = some s
        rw [pageToSlugFold_no_key t _ p hkeys, objGet_objSet,
          if_pos (by rw [hv, hkey]), hs]
      · show objGet (pageToSlugFold (objSet o e.2.toStr e.1) t) p = some s
        exact ih _ ht hnd.2

/-! Lemmas about the embedded JS string operations and request paths. -/

theorem isPrefixOf_eq_true {α : Type} [DecidableEq α] :
    ∀ (p l : List α), p.isPrefixOf l = true ↔ ∃ t, p ++ t = l := by
  intro p
  induction p with
  | nil => intro l; simp [List.isPrefixOf]
  | cons a as ih =>
      intro l
      cases l with
      | nil => simp [List.isPrefixOf]
      | cons b bs =>
          simp only [List.isPrefixOf, Bool.and_eq_true, beq_iff_eq, ih bs]
          constructor
          · rintro ⟨rfl, t, rfl⟩
            exact ⟨t, rfl⟩
          · rintro ⟨t, ht⟩
            cases ht
            exact ⟨rfl, t, rfl⟩

theorem slash_append_data (s : String) : ("/" ++ s).data = '/' :: s.data := by
  rw [String.data_append]
  rfl

theorem jsSlice1_slash (s : String) : jsSlice1 ("/" ++ s) = s := by
  show (⟨("/" ++ s).data.drop 1⟩ : String) = s
  rw [slash_append_data]
  rfl

theorem isHex32_spec (s : String) (h : isHex32 s = true) :
    s.data.length = 32 ∧ ∀ c ∈ s.data, isJsHexChar c = true := by
  rw [isHex32, Bool.and_eq_true, Nat.beq_eq_true_eq, List.all_eq_true] at h
  exact h

theorem isHex32_path_not_special (seg : String) (hh : isHex32 seg = true) :
    ("/" ++ seg) ≠ "/robots.txt" ∧ ("/" ++ seg) ≠ "/sitemap.xml" ∧
      ("/" ++ seg) ≠ "/health" ∧ ("/" ++ seg) ≠ "/_health" ∧
      (jsStartsWith ("/" ++ seg) "/app" && jsEndsWith ("/" ++ seg) ".js") = false ∧
      jsStartsWith ("/" ++ seg) "/api" = false ∧ seg ≠ "" := by
  obtain ⟨hlen, hhex⟩ := isHex32_spec seg hh
  have hdata : ("/" ++ seg).data.length = 33 := by
    rw [slash_append_data, List.length_cons, hlen]
  have noP : 'p' ∉ seg.data := fun hp => by
    have := hhex 'p' hp
    exact absurd this (by decide)
  refine ⟨?_, ?_, ?_, ?_, ?_, ?_, ?_⟩
  · intro heq; rw [heq] at hdata; exact absurd hdata (by decide)
  · intro heq; rw [heq] at hdata; exact absurd hdata (by decide)
  · intro heq; rw [heq] at hdata; exact absurd hdata (by decide)
  · intro heq; rw [heq] at hdata; exact absurd hdata (by decide)
  · have happ : jsStartsWith ("/" ++ seg) "/app" = false := by
      cases hsw : jsStartsWith ("/" ++ seg) "/app"
      · rfl
      · exfalso
        rw [jsStartsWith, slash_append_data, isPrefixOf_eq_true] at hsw
        obtain ⟨t, ht⟩ := hsw
        rw [show ("/app" : String).data = ['/', 'a', 'p', 'p'] from rfl] at ht
        have : 'p' ∈ seg.data := by
          have := List.cons.inj ht
          rw [← this.2]
          simp
        exact noP this
    rw [happ, Bool.false_and]
  · cases hsw : jsStartsWith ("/" ++ seg) "/api"
    · rfl
    · exfalso
      rw [jsStartsWith, slash_append_data, isPrefixOf_eq_true] at hsw
      obtain ⟨t, ht⟩ := hsw
      rw [show ("/api" : String).data = ['/', 'a', 'p', 'i'] from rfl] at ht
      have : 'p' ∈ seg.data := by
        have := List.cons.inj ht
        rw [← this.2]
        simp
      exact noP this
  · intro heq
    rw [heq] at hlen
    exact absurd hlen (by decide)

theorem api_path_not_special (path : String) (h : jsStartsWith path "/api" = true) :
    path ≠ "/robots.txt" ∧ path ≠ "/sitemap.xml" ∧ path ≠ "/health" ∧ path ≠ "/_health" ∧
      (jsStartsWith path "/app" && jsEndsWith path ".js") = false := by
  rw [jsStartsWith, isPrefixOf_eq_true] at h
  obtain ⟨t, ht⟩ := h
  rw [show ("/api" : String).data = ['/', 'a', 'p', 'i'] from rfl] at ht
  have hne : ∀ u : String, u.data ≠ '/' :: 'a' :: 'p' :: 'i' :: t → path ≠ u := by
    intro u hu heq
    apply hu
    rw [← heq, ← ht]
    rfl
  refine ⟨hne _ (fun hh => absurd (List.cons.inj (List.cons.inj hh).2).1 (by decide)),
    hne _ (fun hh => absurd (List.cons.inj (List.cons.inj hh).2).1 (by decide)),
    hne _ (fun hh => absurd (List.cons.inj (List.cons.inj hh).2).1 (by decide)),
    hne _ (fun hh => absurd (List.cons.inj (List.cons.inj hh).2).1 (by decide)), ?_⟩
  have happ : jsStartsWith path "/app" = false := by
    cases hsw : jsStartsWith path "/app"
    · rfl
    · exfalso
      rw [jsStartsWith, isPrefixOf_eq_true] at hsw
      obtain ⟨u, hu⟩ := hsw
      rw [show ("/app" : String).data = ['/', 'a', 'p', 'p'] from rfl, ← ht] at hu
      have h1 := List.cons.inj hu
      have h2 := List.cons.inj h1.2
      have h3 := List.cons.inj h2.2
      have h4 := List.cons.inj h3.2
      exact absurd h4.1 (by decide)
  rw [happ, Bool.false_and]

/-- Unfolds the router for a request (with a resolved configuration) that is
not a CORS preflight and does not match any route before slug redirection. -/
theorem fetchAndApply_route (cfg : Config) (hostname method path : String)
    (o a h : Option String)
    (hm : method ≠ "OPTIONS") (h1 : path ≠ "/robots.txt") (h2 : path ≠ "/sitemap.xml")
    (h3 : path ≠ "/health") (h4 : path ≠ "/_health")
    (h5 : (jsStartsWith path "/app" && jsEndsWith path ".js") = false)
    (h6 : jsStartsWith path "/api" = false) :
    fetchAndApply hostname method path o a h (some cfg) =
      match handleSlugRedirection path cfg with
      | some r => .response r
      | none =>
        match handleUnknownPageRedirection path cfg with
        | some r => .response r
        | none => .fetchHtml path := by
  show (if method = "OPTIONS" then
          RouterResult.response (handleCorsPreflightRequest o a h)
        else if path = "/robots.txt" then .response (generateRobotsTxt cfg)
        else if path = "/sitemap.xml" then .response (generateSitemapResponse cfg)
        else if path = "/health" ∨ path = "/_health" then .response healthResponse
        else if jsStartsWith path "/app" && jsEndsWith path ".js" then .fetchJs path
        else if jsStartsWith path "/api" then .fetchApi (handleApiRequests path)
        else
          match handleSlugRedirection path cfg with
          | some r => .response r
          | none =>
            match handleUnknownPageRedirection path cfg with
            | some r => .response r
            | none => .fetchHtml path) = _
  rw [if_neg hm, if_neg h1, if_neg h2, if_neg (not_or.mpr ⟨h3, h4⟩),
    if_neg (by rw [h5]; exact Bool.false_ne_true), if_neg (by rw [h6]; exact Bool.false_ne_true)]

/-! Lemmas about case-variants of hex strings. -/

theorem charCaseEq_hex (x y : Char) (h : charCaseEq x y = true)
    (hy : isJsHexChar y = true) : isJsHexChar x = true := by
  rw [charCaseEq] at h
  rw [isJsHexChar] at hy ⊢
  simp only [Bool.or_eq_true, Bool.and_eq_true, beq_iff_eq, decide_eq_true_eq] at h hy ⊢
  rcases h with (h | h) | h
  · subst h; exact hy
  · omega
  · omega

theorem eqIgnoreCase_hex :
    ∀ (a b : List Char), eqIgnoreCase a b = true → b.all isJsHexChar = true →
      a.all isJsHexChar = true ∧ a.length = b.length := by
  intro a
  induction a with
  | nil =>
      intro b h _
      cases b with
      | nil => exact ⟨rfl, rfl⟩
      | cons y ys => simp [eqIgnoreCase] at h
  | cons x xs ih =>
      intro b h hb
      cases b with
      | nil => simp [eqIgnoreCase] at h
      | cons y ys =>
          rw [eqIgnoreCase, Bool.and_eq_true] at h
          rw [List.all_cons, Bool.and_eq_true] at hb
          obtain ⟨hall, hlen⟩ := ih ys h.2 hb.2
          refine ⟨?_, by simpa using hlen⟩
          rw [List.all_cons, Bool.and_eq_true]
          exact ⟨charCaseEq_hex x y h.1 hb.1, hall⟩

theorem isHex32_of_eqIgnoreCase (s p : String) (h : eqIgnoreCase s.data p.data = true)
    (hp : isHex32 p = true) : isHex32 s = true := by
  rw [isHex32, Bool.and_eq_true, Nat.beq_eq_true_eq] at hp ⊢
  obtain ⟨hall, hlen⟩ := eqIgnoreCase_hex s.data p.data h hp.2
  exact ⟨by rw [hlen, hp.1], hall⟩

/-! Characterizations of the derived configuration fields. -/

theorem Config.pageToSlugOf_eq (c : Config) :
    c.pageToSlugOf = pageToSlugFold [] (validEntries c.SLUG_TO_PAGE) := by
  rw [Config.pageToSlugOf, processConfigurationObject_eq]

theorem Config.slugsOf_eq (c : Config) :
    c.slugsOf = (validEntries c.SLUG_TO_PAGE).map Prod.fst := by
  rw [Config.slugsOf, processConfigurationObject_eq]

theorem Config.pagesOf_eq (c : Config) :
    c.pagesOf = (validEntries c.SLUG_TO_PAGE).map (fun e => e.2.toStr) := by
  rw [Config.pagesOf, processConfigurationObject_eq]

/-- The condition `if (pageId)` tested by `handleSlugRedirection`: the path
segment is a key of the raw `SLUG_TO_PAGE` object holding a truthy value. -/
def slugLookupTruthy (cfg : Config) (slug : String) : Bool :=
  match objGet cfg.SLUG_TO_PAGE slug with
  | some v => v.truthy
  | none => false

/-- `SLUG_TO_PAGE` values are all strings, as the configuration schema
intends. -/
def allStringValues (cfg : Config) : Prop :=
  ∀ e ∈ cfg.SLUG_TO_PAGE, e.2.isString = true

/-! Concrete configurations used as witnesses and counterexamples. -/

/-- A well-known 32-hex page id. -/
def hexId : String := "a1a1a1a1a1a1a1a1a1a1a1a1a1a1a1a1"

/-- The worked example configuration from the documentation: a root page and
an `about` page. -/
def cfgExample : Config :=
  ⟨"ex.com", [("", .str "a1a1a1a1a1a1a1a1a1a1a1a1a1a1a1a1"),
              ("about", .str "b2b2b2b2b2b2b2b2b2b2b2b2b2b2b2b2")], by decide⟩

/-- A configuration in which two slugs map to the same page id. -/
def cfgDuplicatePages : Config :=
  ⟨"ex.com", [("a", .str "p"), ("b", .str "p")], by decide⟩

/-- A configuration with a slug whose page id is the empty string (a falsy
value that `processConfigurationObject` filters out but that remains a key of
the raw `SLUG_TO_PAGE` object). -/
def cfgEmptyValue : Config := ⟨"ex.com", [("x", .str "")], by decide⟩

/-- A configuration in which a valid page id also occurs as a slug key whose
value is the JSON empty array `[]` (truthy, with JS string conversion `""`). -/
def cfgArrayValue : Config :=
  ⟨"ex.com", [("a", .str hexId), (hexId, .objLike "")], by decide⟩

/-- The 32-hex string `abab…` and its uppercase form. -/
def lowerId : String := "abababababababababababababababab"

/-- Uppercase form of `lowerId`. -/
def upperId : String := "ABABABABABABABABABABABABABABABAB"

/-- A configuration containing both letter-case forms of the same page id. -/
def cfgBothCases : Config :=
  ⟨"ex.com", [("a", .str lowerId), ("b", .str upperId)], by decide⟩

/-! Claim C1. -/

/-- C1 (amended): for every raw configuration, the derived `slugs` and
`pages` sequences have equal length with index-aligned correspondence under
`SLUG_TO_PAGE`, in entry order; and whenever the valid entries carry
pairwise-distinct page ids, the derived `PAGE_TO_SLUG` is exactly the inverse
of the entries of `SLUG_TO_PAGE` whose value is a non-empty string.  (Without
the distinctness proviso the inverse direction fails: a later duplicate
overwrites the `PAGE_TO_SLUG` entry of an earlier one, as the counterexample
exhibits.) -/
theorem c1_pageToSlug_inverse (cfg : Config) :
    (cfg.pagesOf.Nodup →
      ∀ p s, objGet cfg.pageToSlugOf p = some s ↔
        ((s, JVal.str p) ∈ cfg.SLUG_TO_PAGE ∧ p ≠ "")) ∧
    cfg.slugsOf.length = cfg.pagesOf.length ∧
    (∀ i, (hi : i < cfg.slugsOf.length) → (hj : i < cfg.pagesOf.length) →
      objGet cfg.SLUG_TO_PAGE (cfg.slugsOf.get ⟨i, hi⟩) =
        some (.str (cfg.pagesOf.get ⟨i, hj⟩))) := by
  refine ⟨fun hnd p s => ?_, ?_, fun i hi hj => ?_⟩
  · rw [Config.pagesOf_eq] at hnd
    rw [Config.pageToSlugOf_eq]
    constructor
    · intro h
      rcases pageToSlugFold_sound _ _ _ _ h with ⟨v, hv, hkey⟩ | hO
      · rw [validEntries, List.mem_filter] at hv
        obtain ⟨hmem, hval⟩ := hv
        obtain ⟨hstr, hne⟩ := isValidPageEntry_str v hval
        rw [hkey] at hstr hne
        exact ⟨hstr ▸ hmem, hne⟩
      · simp [objGet] at hO
    · rintro ⟨hmem, hne⟩
      refine pageToSlugFold_complete _ _ _ (.str p) _ ?_ rfl hnd
      rw [validEntries, List.mem_filter]
      exact ⟨hmem, isValidPageEntry_of_str p hne⟩
  · rw [Config.slugsOf_eq, Config.pagesOf_eq, List.length_map, List.length_map]
  · have hi' : i < (validEntries cfg.SLUG_TO_PAGE).length := by
      rw [Config.slugsOf_eq, List.length_map] at hi
      exact hi
    have hs : cfg.slugsOf.get ⟨i, hi⟩ = ((validEntries cfg.SLUG_TO_PAGE).get ⟨i, hi'⟩).1 := by
      have := Config.slugsOf_eq cfg
      rw [List.get_of_eq this, List.get_map]
    have hpg : cfg.pagesOf.get ⟨i, hj⟩ =
        ((validEntries cfg.SLUG_TO_PAGE).get ⟨i, hi'⟩).2.toStr := by
      have := Config.pagesOf_eq cfg
      rw [List.get_of_eq this, List.get_map]
    rw [hs, hpg]
    have hvmem : (validEntries cfg.SLUG_TO_PAGE).get ⟨i, hi'⟩ ∈ cfg.SLUG_TO_PAGE ∧
        isValidPageEntry ((validEntries cfg.SLUG_TO_PAGE).get ⟨i, hi'⟩).2 = true :=
      List.mem_filter.mp (List.get_mem _ i hi')
    obtain ⟨hmem, hval⟩ := hvmem
    obtain ⟨hstr, _⟩ := isValidPageEntry_str _ hval
    have := objGet_of_mem_nodup cfg.SLUG_TO_PAGE _ _
      (by exact hmem) cfg.keys_nodup
    rw [this]
    rw [← hstr]

/-- C1 witness: the inverse and alignment properties instantiated at the
documentation example configuration, with the distinctness proviso of the
inverse conjunct discharged there. -/
theorem c1_witness :
    (∀ p s, objGet cfgExample.pageToSlugOf p = some s ↔
      ((s, JVal.str p) ∈ cfgExample.SLUG_TO_PAGE ∧ p ≠ "")) ∧
    cfgExample.slugsOf.length = cfgExample.pagesOf.length ∧
    (∀ i, (hi : i < cfgExample.slugsOf.length) → (hj : i < cfgExample.pagesOf.length) →
      objGet cfgExample.SLUG_TO_PAGE (cfgExample.slugsOf.get ⟨i, hi⟩) =
        some (.str (cfgExample.pagesOf.get ⟨i, hj⟩))) :=
  ⟨(c1_pageToSlug_inverse cfgExample).1 (by decide),
   (c1_pageToSlug_inverse cfgExample).2.1,
   (c1_pageToSlug_inverse cfgExample).2.2⟩

/-- C1 counterexample: with two slugs `a` and `b` both mapping to page id `p`,
`PAGE_TO_SLUG` is not the inverse of the valid entries of `SLUG_TO_PAGE`
(which contains `(a, p)`): the lookup of `p` does not yield `a` — the second
conjunct exhibits that it yields only the later slug `b`, the last
assignment. -/
theorem c1_cex_duplicate_page_ids :
    ¬ (objGet cfgDuplicatePages.pageToSlugOf "p" = some "a" ↔
        (("a", JVal.str "p") ∈ cfgDuplicatePages.SLUG_TO_PAGE ∧ "p" ≠ "")) ∧
    objGet cfgDuplicatePages.pageToSlugOf "p" = some "b" := by decide

/-! Claim C2. -/

/-- C2 (amended): a GET request for `/health` or `/_health` is answered with
the fixed 200 `OK` text response whenever a configuration resolves for the
hostname; when no configuration resolves, the router answers the 404
`not configured` response instead (the configuration check precedes the health
route in the source). -/
theorem c2_health_route (hostname path : String) (o a h : Option String) (cfg : Config)
    (hp : path = "/health" ∨ path = "/_health") :
    fetchAndApply hostname "GET" path o a h (some cfg) = .response healthResponse ∧
    fetchAndApply hostname "GET" path o a h none =
      .response (notConfiguredResponse (stripWww hostname)) := by
  constructor
  · rcases hp with rfl | rfl <;>
      · simp only [fetchAndApply]
        rw [if_neg (by decide), if_neg (by decide), if_neg (by decide), if_pos (by decide)]
  · rfl

/-- C2 witness: with the example configuration resolved, GET `/health` is 200
`OK`; for the unconfigured hostname the same request is the 404 response. -/
theorem c2_witness :
    fetchAndApply "ex.com" "GET" "/health" none none none (some cfgExample) =
      .response healthResponse ∧
    fetchAndApply "ex.com" "GET" "/health" none none none none =
      .response (notConfiguredResponse (stripWww "ex.com")) :=
  c2_health_route "ex.com" "/health" none none none cfgExample (Or.inl rfl)

/-- C2 counterexample: when no configuration resolves for the hostname, GET
`/health` is answered 404 `Domain "nope.com" not configured`, not 200 `OK` —
the source checks the configuration before the health route. -/
theorem c2_cex_health_unresolved_host :
    ¬ (fetchAndApply "nope.com" "GET" "/health" none none none none =
        .response healthResponse) ∧
    fetchAndApply "nope.com" "GET" "/health" none none none none =
      .response (notConfiguredResponse "nope.com") := by decide

/-! Claim C3. -/

/-- C3 (amended): a request (outside the earlier routing rules) whose path
minus the leading slash matches a key of `SLUG_TO_PAGE` holding a truthy value
is answered with a 301 redirect: to `https://<domain>/` when the key is the
root slug, else to `https://<domain>/<v>` where `v` is the string form of the
mapped value (the page id, for schema-conformant string entries).  (The
original claim fails for keys holding falsy values such as the empty string:
those fall through to later routing stages.) -/
theorem c3_slug_redirect (cfg : Config) (hostname method path slug : String) (v : JVal)
    (o a h : Option String)
    (hm : method ≠ "OPTIONS") (hp : path = "/" ++ slug)
    (h1 : path ≠ "/robots.txt") (h2 : path ≠ "/sitemap.xml") (h3 : path ≠ "/health")
    (h4 : path ≠ "/_health")
    (h5 : (jsStartsWith path "/app" && jsEndsWith path ".js") = false)
    (h6 : jsStartsWith path "/api" = false)
    (hv : objGet cfg.SLUG_TO_PAGE slug = some v) (ht : v.truthy = true) :
    fetchAndApply hostname method path o a h (some cfg) =
      .response (redirectResponse
        (if slug = "" then "https://" ++ cfg.MY_DOMAIN ++ "/"
         else "https://" ++ cfg.MY_DOMAIN ++ "/" ++ v.toStr)) := by
  rw [fetchAndApply_route cfg hostname method path o a h hm h1 h2 h3 h4 h5 h6]
  subst hp
  have hs : handleSlugRedirection ("/" ++ slug) cfg =
      some (redirectResponse
        (if slug = "" then "https://" ++ cfg.MY_DOMAIN ++ "/"
         else "https://" ++ cfg.MY_DOMAIN ++ "/" ++ v.toStr)) := by
    simp only [handleSlugRedirection, jsSlice1_slash, hv, ht, if_true]
  rw [hs]

/-- C3 witness: the documentation example — `/about` is 301-redirected to
`https://ex.com/b2b2b2b2b2b2b2b2b2b2b2b2b2b2b2b2`. -/
theorem c3_witness :
    fetchAndApply "ex.com" "GET" "/about" none none none (some cfgExample) =
      .response (redirectResponse "https://ex.com/b2b2b2b2b2b2b2b2b2b2b2b2b2b2b2b2") := by
  have h := c3_slug_redirect cfgExample "ex.com" "GET" "/about" "about"
    (.str "b2b2b2b2b2b2b2b2b2b2b2b2b2b2b2b2") none none none
    (by decide) (by decide) (by decide) (by decide) (by decide) (by decide)
    (by decide) (by decide) (by decide) (by decide)
  exact h.trans (by decide)

/-- C3 counterexample: with `SLUG_TO_PAGE` containing the entry
`("x", "")`, the path `/x` matches the key `x` but the falsy value makes
`handleSlugRedirection` yield nothing, so the router serves HTML content
instead of any 301 redirect. -/
theorem c3_cex_empty_page_id :
    fetchAndApply "ex.com" "GET" "/x" none none none (some cfgEmptyValue) = .fetchHtml "/x" ∧
    ¬ (fetchAndApply "ex.com" "GET" "/x" none none none (some cfgEmptyValue) =
        .response (redirectResponse ("https://ex.com/" ++ (JVal.str "").toStr))) := by decide

/-! Claim C4. -/

theorem isEmpty_false_of_ne (s : String) (h : s ≠ "") : s.isEmpty = false := by
  cases hh : s.isEmpty
  · rfl
  · exact absurd ((String.isEmpty_iff s).mp hh) h

theorem str_truthy (s : String) (h : s ≠ "") : (JVal.str s).truthy = true := by
  rw [JVal.truthy, isEmpty_false_of_ne s h]
  rfl

theorem append_ne_of_ne_empty (a b : String) (hb : b ≠ "") : a ++ b ≠ a := by
  intro h
  have hlen : (a ++ b).data.length = a.data.length := congrArg (fun s => s.data.length) h
  rw [String.data_append, List.length_append] at hlen
  have hz : b.data.length = 0 := by omega
  have hnil := List.length_eq_zero.mp hz
  exact hb (by
    have hbb : b = ⟨b.data⟩ := rfl
    rw [hbb, hnil])

/-- C4 (amended): for configurations whose `SLUG_TO_PAGE` values are all
strings (the schema-conformant case) and a path segment matching the 32-hex
pattern: if the segment is present in the derived `pages` array the router
never answers a 301 redirect to the domain root, and if it is absent from
`pages` and is not a key of `SLUG_TO_PAGE`, the router always answers a 301
redirect to `https://<domain>/`.  (For non-string slug values the first part
can fail: a truthy non-string value whose JS string form is empty, such as the
JSON array `[]`, makes the slug stage redirect to the root.) -/
theorem c4_unknown_hex_redirect (cfg : Config) (hostname method seg : String)
    (o a h : Option String)
    (hm : method ≠ "OPTIONS") (hhex : isHex32 seg = true) (hstr : allStringValues cfg) :
    (seg ∈ cfg.pagesOf →
      fetchAndApply hostname method ("/" ++ seg) o a h (some cfg) ≠
        .response (redirectResponse ("https://" ++ cfg.MY_DOMAIN ++ "/"))) ∧
    (seg ∉ cfg.pagesOf → objGet cfg.SLUG_TO_PAGE seg = none →
      fetchAndApply hostname method ("/" ++ seg) o a h (some cfg) =
        .response (redirectResponse ("https://" ++ cfg.MY_DOMAIN ++ "/"))) := by
  obtain ⟨h1, h2, h3, h4, h5, h6, hne⟩ := isHex32_path_not_special seg hhex
  rw [fetchAndApply_route cfg hostname method ("/" ++ seg) o a h hm h1 h2 h3 h4 h5 h6]
  constructor
  · intro hmem
    have hcontains : cfg.pagesOf.contains seg = true := List.elem_iff.mpr hmem
    have hunknown : handleUnknownPageRedirection ("/" ++ seg) cfg = none := by
      simp only [handleUnknownPageRedirection, jsSlice1_slash, hcontains, Bool.not_true,
        Bool.and_false, Bool.false_eq_true, if_false]
    cases hv : objGet cfg.SLUG_TO_PAGE seg with
    | none =>
        have hslug : handleSlugRedirection ("/" ++ seg) cfg = none := by
          simp only [handleSlugRedirection, jsSlice1_slash, hv]
        rw [hslug, hunknown]
        intro hh
        exact absurd hh (by simp)
    | some v =>
        have hvs : v.isString = true := hstr _ (objGet_mem _ _ _ hv)
        cases v with
        | str sv =>
            by_cases hsv : sv = ""
            · have hslug : handleSlugRedirection ("/" ++ seg) cfg = none := by
                subst hsv
                simp only [handleSlugRedirection, jsSlice1_slash, hv]
                rfl
              rw [hslug, hunknown]
              intro hh
              exact absurd hh (by simp)
            · have hslug : handleSlugRedirection ("/" ++ seg) cfg =
                  some (redirectResponse ("https://" ++ cfg.MY_DOMAIN ++ "/" ++ sv)) := by
                simp only [handleSlugRedirection, jsSlice1_slash, hv, str_truthy sv hsv,
                  if_true, if_neg hne]
                rfl
              rw [hslug]
              intro hh
              simp only [RouterResult.response.injEq, redirectResponse,
                HttpResponse.mk.injEq, List.cons.injEq, Prod.mk.injEq, true_and,
                and_true] at hh
              exact append_ne_of_ne_empty ("https://" ++ cfg.MY_DOMAIN ++ "/") sv hsv hh
        | num n => simp [JVal.isString] at hvs
        | boolean b => simp [JVal.isString] at hvs
        | null => simp [JVal.isString] at hvs
        | objLike d => simp [JVal.isString] at hvs
  · intro hmem hkey
    have hcontains : cfg.pagesOf.contains seg = false := by
      cases hc : cfg.pagesOf.contains seg
      · rfl
      · exact absurd (List.elem_iff.mp hc) hmem
    have hslug : handleSlugRedirection ("/" ++ seg) cfg = none := by
      simp only [handleSlugRedirection, jsSlice1_slash, hkey]
    have hunknown : handleUnknownPageRedirection ("/" ++ seg) cfg =
        some (redirectResponse ("https://" ++ cfg.MY_DOMAIN ++ "/")) := by
      simp only [handleUnknownPageRedirection, jsSlice1_slash, hcontains, hhex,
        Bool.not_false, Bool.and_true, if_true]
    rw [hslug, hunknown]

/-- C4 witness: with the example configuration, the unknown page id `c3c3…` —
a 32-hex segment absent from `pages` and not a slug key — is 301-redirected to
the domain root, and the membership branch holds vacuously. -/
theorem c4_witness :
    (("c3c3c3c3c3c3c3c3c3c3c3c3c3c3c3c3" : String) ∈ cfgExample.pagesOf →
      fetchAndApply "ex.com" "GET" "/c3c3c3c3c3c3c3c3c3c3c3c3c3c3c3c3" none none none
          (some cfgExample) ≠
        .response (redirectResponse ("https://" ++ cfgExample.MY_DOMAIN ++ "/"))) ∧
    (("c3c3c3c3c3c3c3c3c3c3c3c3c3c3c3c3" : String) ∉ cfgExample.pagesOf →
      objGet cfgExample.SLUG_TO_PAGE "c3c3c3c3c3c3c3c3c3c3c3c3c3c3c3c3" = none →
      fetchAndApply "ex.com" "GET" "/c3c3c3c3c3c3c3c3c3c3c3c3c3c3c3c3" none none none
          (some cfgExample) =
        .response (redirectResponse ("https://" ++ cfgExample.MY_DOMAIN ++ "/"))) :=
  c4_unknown_hex_redirect cfgExample "ex.com" "GET" "c3c3c3c3c3c3c3c3c3c3c3c3c3c3c3c3"
    none none none (by decide) (by decide) (by unfold allStringValues; decide)

/-- C4 counterexample: in a configuration where the valid page id `a1a1…` also
occurs as a slug key whose value is the truthy JSON array `[]` (string form
`""`), the request `/a1a1…` — whose segment is present in `pages` — is
301-redirected to the domain root by the slug stage. -/
theorem c4_cex_array_valued_slug :
    hexId ∈ cfgArrayValue.pagesOf ∧ isHex32 hexId = true ∧
    fetchAndApply "ex.com" "GET" ("/" ++ hexId) none none none (some cfgArrayValue) =
      .response (redirectResponse "https://ex.com/") := by decide

/-! Claim C5. -/

/-- C5 (code bug): with the documentation example configuration — whose root
slug maps `""` to the homepage id — routing the root path `/` yields a 301
redirect to `https://ex.com/`, whose own path is again `/`; the target of the
root-slug redirect is therefore redirected again by this very theorem
(an infinite redirect loop), contradicting the claimed idempotence.  The
README states that the domain root serves the page mapped to the empty slug,
so the self-redirect in `handleSlugRedirection` contradicts the project's own
documentation. -/
theorem c5_root_slug_redirect_loop :
    fetchAndApply "ex.com" "GET" "/" none none none (some cfgExample) =
      .response (redirectResponse "https://ex.com/") := by decide

/-! Claim C6. -/

theorem optTruthy_iff (o : Option String) :
    (match o with | some s => !s.isEmpty | none => false) = true ↔
      ∃ s, o = some s ∧ s ≠ "" := by
  cases o with
  | none => simp
  | some s =>
      simp only [Option.some.injEq]
      constructor
      · intro hb
        refine ⟨s, rfl, fun hs => ?_⟩
        rw [hs] at hb
        exact absurd hb (by decide)
      · rintro ⟨s', heq, hne⟩
        cases heq
        rw [isEmpty_false_of_ne s hne]
        rfl

/-- C6 (amended): a CORS preflight with `Origin`,
`Access-Control-Request-Method` and `Access-Control-Request-Headers` all
present with non-empty values is answered 204 with the fixed permissive CORS
header set; if any of the three is missing or present with an empty value
(empty header values are falsy in JS), the answer is 405 with an `Allow`
header listing the supported methods.  The router dispatches every OPTIONS
request with a resolved configuration to this handler. -/
theorem c6_cors_preflight :
    (∀ o m hd : Option String,
      (handleCorsPreflightRequest o m hd =
          { status := 204, body := none, headers := corsHeaders } ↔
        ((∃ s, o = some s ∧ s ≠ "") ∧ (∃ s, m = some s ∧ s ≠ "") ∧
          (∃ s, hd = some s ∧ s ≠ ""))) ∧
      (handleCorsPreflightRequest o m hd =
          { status := 405, body := none,
            headers := [("Allow", "GET, HEAD, POST, PUT, OPTIONS")] } ↔
        ¬ ((∃ s, o = some s ∧ s ≠ "") ∧ (∃ s, m = some s ∧ s ≠ "") ∧
            (∃ s, hd = some s ∧ s ≠ "")))) ∧
    (∀ (cfg : Config) (hostname path : String) (o m hd : Option String),
      fetchAndApply hostname "OPTIONS" path o m hd (some cfg) =
        .response (handleCorsPreflightRequest o m hd)) := by
  constructor
  · intro o m hd
    by_cases hcond : ((match o with | some s => !s.isEmpty | none => false) &&
        ((match m with | some s => !s.isEmpty | none => false) &&
          (match hd with | some s => !s.isEmpty | none => false))) = true
    · have hP : (∃ s, o = some s ∧ s ≠ "") ∧ (∃ s, m = some s ∧ s ≠ "") ∧
          (∃ s, hd = some s ∧ s ≠ "") := by
        rw [Bool.and_eq_true, Bool.and_eq_true] at hcond
        exact ⟨(optTruthy_iff o).mp hcond.1, (optTruthy_iff m).mp hcond.2.1,
          (optTruthy_iff hd).mp hcond.2.2⟩
      have hres : handleCorsPreflightRequest o m hd =
          { status := 204, body := none, headers := corsHeaders } := by
        rw [handleCorsPreflightRequest.eq_def,
          if_pos (by rw [← Bool.and_assoc] at hcond; exact hcond)]
      constructor
      · rw [hres]
        simp [hP]
      · rw [hres]
        constructor
        · intro hh
          exact absurd hh (by decide)
        · intro hh
          exact absurd hP hh
    · have hP : ¬ ((∃ s, o = some s ∧ s ≠ "") ∧ (∃ s, m = some s ∧ s ≠ "") ∧
          (∃ s, hd = some s ∧ s ≠ "")) := by
        intro hh
        exact hcond (by
          rw [Bool.and_eq_true, Bool.and_eq_true]
          exact ⟨(optTruthy_iff o).mpr hh.1, (optTruthy_iff m).mpr hh.2.1,
            (optTruthy_iff hd).mpr hh.2.2⟩)
      have hres : handleCorsPreflightRequest o m hd =
          { status := 405, body := none,
            headers := [("Allow", "GET, HEAD, POST, PUT, OPTIONS")] } := by
        rw [handleCorsPreflightRequest.eq_def,
          if_neg (by rw [← Bool.and_assoc] at hcond; exact hcond)]
      constructor
      · rw [hres]
        constructor
        · intro hh
          exact absurd hh (by decide)
        · intro hh
          exact absurd hh hP
      · rw [hres]
        simp [hP]
  · intro cfg hostname path o m hd
    simp [fetchAndApply]

/-- C6 counterexample: a preflight whose `Origin` header is present but has
the empty value is answered 405, not 204 — JS truthiness, not presence, is
what the handler tests. -/
theorem c6_cex_empty_origin_header :
    ¬ (handleCorsPreflightRequest (some "") (some "POST") (some "X-Custom") =
        { status := 204, body := none, headers := corsHeaders }) ∧
    handleCorsPreflightRequest (some "") (some "POST") (some "X-Custom") =
      { status := 405, body := none,
        headers := [("Allow", "GET, HEAD, POST, PUT, OPTIONS")] } := by decide

/-! Claim C7. -/

/-- C7: every API-passthrough request — a non-preflight request whose path
begins with `/api`, routed with a resolved configuration — produces an
outbound upstream request that always uses method POST with the fixed JSON
content type and the browser-like user agent, forwarding the original request
body exactly when the path does not contain `/api/v3/getPublicPageData`. -/
theorem c7_api_passthrough (cfg : Config) (hostname method path : String)
    (o a h : Option String)
    (hm : method ≠ "OPTIONS") (hapi : jsStartsWith path "/api" = true) :
    fetchAndApply hostname method path o a h (some cfg) =
      .fetchApi
        { method := "POST",
          contentType := "application/json;charset=UTF-8",
          userAgent := chromeUserAgent,
          forwardsBody := !(jsIncludes path "/api/v3/getPublicPageData") } := by
  obtain ⟨h1, h2, h3, h4, h5⟩ := api_path_not_special path hapi
  simp only [fetchAndApply]
  rw [if_neg hm, if_neg h1, if_neg h2, if_neg (not_or.mpr ⟨h3, h4⟩),
    if_neg (by rw [h5]; exact Bool.false_ne_true), if_pos hapi]
  rfl

/-- C7 witness: a request to the page-data endpoint is issued upstream as a
POST with the fixed headers and no body. -/
theorem c7_witness :
    fetchAndApply "ex.com" "GET" "/api/v3/getPublicPageData" none none none
        (some cfgExample) =
      .fetchApi
        { method := "POST",
          contentType := "application/json;charset=UTF-8",
          userAgent := chromeUserAgent,
          forwardsBody := false } := by
  have h := c7_api_passthrough cfgExample "ex.com" "GET" "/api/v3/getPublicPageData"
    none none none (by decide) (by decide)
  exact h.trans (by decide)

/-! Claim C8. -/

/-- The `<url>` element the specification prescribes for one slug: the root
slug maps to the domain root location, every other slug to `/<slug>`, with
fixed weekly change frequency and 0.8 priority. -/
def sitemapSpecUrlEntry (domain slug : String) : String :=
  "<url><loc>" ++
    (if slug = "" then "https://" ++ domain ++ "/"
     else "https://" ++ domain ++ "/" ++ slug) ++
    "</loc><changefreq>weekly</changefreq><priority>0.8</priority></url>"

/-- The sitemap document the specification prescribes: one `<url>` entry per
slug, in `slugs` order, inside the fixed XML envelope. -/
def sitemapSpecDocument (domain : String) (slugs : List String) : String :=
  "<?xml version=\"1.0\" encoding=\"UTF-8\"?>\n<urlset xmlns=\"http://www.sitemaps.org/schemas/sitemap/0.9\">\n" ++
    String.intercalate "\n" (slugs.map (sitemapSpecUrlEntry domain)) ++ "\n</urlset>"

/-- C8: for every configuration, the sitemap generator emits exactly the
specification document — one `<url>` entry per derived slug, in `slugs` order,
with the root-versus-subpath location forms and the fixed change frequency and
priority — and the entry list has exactly the length of `slugs`. -/
theorem c8_sitemap (cfg : Config) :
    generateSitemap cfg.MY_DOMAIN cfg.slugsOf =
      sitemapSpecDocument cfg.MY_DOMAIN cfg.slugsOf ∧
    (cfg.slugsOf.map (sitemapSpecUrlEntry cfg.MY_DOMAIN)).length = cfg.slugsOf.length ∧
    fetchAndApply "ex.com" "GET" "/sitemap.xml" none none none (some cfg) =
      .response
        { status := 200,
          body := some (sitemapSpecDocument cfg.MY_DOMAIN cfg.slugsOf),
          headers := [("Content-Type", "application/xml")] } := by
  have hgen : generateSitemap cfg.MY_DOMAIN cfg.slugsOf =
      sitemapSpecDocument cfg.MY_DOMAIN cfg.slugsOf := by
    rw [generateSitemap, sitemapSpecDocument, List.filter_true]
    rfl
  refine ⟨hgen, List.length_map _ _, ?_⟩
  simp only [fetchAndApply]
  rw [if_pos trivial]
  simp only [generateSitemapResponse, hgen]
  rw [if_neg (by decide), if_neg (by decide)]

/-! Claim C9. -/

/-- C9: with no cache entry for the normalized hostname, a resolution that
fails — because the store reports the hostname absent, or because the stored
bytes do not parse — yields no configuration and leaves the cache unchanged
(no entry is created, so a later resolution consults the store again); only a
successful resolution stores the processed configuration under the normalized
hostname.  A failed resolution makes the router answer the visitor-facing 404
response.  (`JSON.parse` rejects the empty string, so a successful parse has
non-empty raw bytes.) -/
theorem c9_resolution_failure (parse : String → Option SlugMap)
    (store : String → Option String) (cache : List (String × Config)) (hostname : String)
    (hmiss : objGet cache (stripWww hostname) = none) :
    (store (stripWww hostname) = none →
      getDomainConfig parse store cache hostname = (none, cache)) ∧
    (∀ raw, store (stripWww hostname) = some raw → parse raw = none →
      getDomainConfig parse store cache hostname = (none, cache)) ∧
    (∀ raw sm, store (stripWww hostname) = some raw → raw ≠ "" → parse raw = some sm →
      getDomainConfig parse store cache hostname =
        (some ⟨stripWww hostname, sm.entries, sm.entries_nodup⟩,
         objSet cache (stripWww hostname) ⟨stripWww hostname, sm.entries, sm.entries_nodup⟩)) ∧
    (∀ method path o a hd,
      fetchAndApply hostname method path o a hd none =
        .response (notConfiguredResponse (stripWww hostname))) := by
  refine ⟨?_, ?_, ?_, fun method path o a hd => rfl⟩
  · intro habs
    simp only [getDomainConfig, hmiss, habs]
  · intro raw hraw hparse
    simp only [getDomainConfig, hmiss, hraw]
    by_cases hempty : raw = ""
    · rw [if_pos hempty]
    · rw [if_neg hempty, hparse]
  · intro raw sm hraw hne hparse
    simp only [getDomainConfig, hmiss, hraw, hparse, if_neg hne]

/-- C9 witness: with an empty cache and a store that knows no hostname,
resolution of `nope.com` yields no configuration and the cache stays empty. -/
theorem c9_witness :
    getDomainConfig (fun _ => none) (fun _ => none) [] "nope.com" = (none, []) :=
  (c9_resolution_failure (fun _ => none) (fun _ => none) [] "nope.com" rfl).1 rfl

/-! Claim C10. -/

/-- C10 (amended): when the derived `pages` array contains a 32-hex page id
and the request's path segment is the same hex string in a different letter
case, the segment still satisfies the case-insensitive pattern test; provided
that this case-variant does not itself occur in `pages` and is not a slug key
holding a truthy value, the case-sensitive membership test fails and the
router answers a 301 redirect to the domain root instead of serving content.
(The original claim fails when the configuration also lists the case-variant
itself as a page id: membership then succeeds and the request is served as
content.) -/
theorem c10_case_variant_redirect (cfg : Config) (hostname method p seg : String)
    (o a hd : Option String)
    (hm : method ≠ "OPTIONS") (hp : p ∈ cfg.pagesOf) (hphex : isHex32 p = true)
    (hcase : eqIgnoreCase seg.data p.data = true) (hne : seg ≠ p)
    (hseg : seg ∉ cfg.pagesOf) (hkey : slugLookupTruthy cfg seg = false) :
    isHex32 seg = true ∧ cfg.pagesOf.contains seg = false ∧
    fetchAndApply hostname method ("/" ++ seg) o a hd (some cfg) =
      .response (redirectResponse ("https://" ++ cfg.MY_DOMAIN ++ "/")) := by
  have hshex : isHex32 seg = true := isHex32_of_eqIgnoreCase seg p hcase hphex
  have hcontains : cfg.pagesOf.contains seg = false := by
    cases hc : cfg.pagesOf.contains seg
    · rfl
    · exact absurd (List.elem_iff.mp hc) hseg
  obtain ⟨h1, h2, h3, h4, h5, h6, _⟩ := isHex32_path_not_special seg hshex
  refine ⟨hshex, hcontains, ?_⟩
  rw [fetchAndApply_route cfg hostname method ("/" ++ seg) o a hd hm h1 h2 h3 h4 h5 h6]
  have hslug : handleSlugRedirection ("/" ++ seg) cfg = none := by
    rw [slugLookupTruthy] at hkey
    simp only [handleSlugRedirection, jsSlice1_slash]
    cases hv : objGet cfg.SLUG_TO_PAGE seg with
    | none => rfl
    | some v =>
        rw [hv] at hkey
        have hkey' : v.truthy = false := hkey
        simp only [hkey', Bool.false_eq_true, if_false]
  have hunknown : handleUnknownPageRedirection ("/" ++ seg) cfg =
      some (redirectResponse ("https://" ++ cfg.MY_DOMAIN ++ "/")) := by
    simp only [handleUnknownPageRedirection, jsSlice1_slash, hcontains, hshex,
      Bool.not_false, Bool.and_true, if_true]
  rw [hslug, hunknown]

/-- C10 witness: with the example configuration, the uppercase form of the
configured homepage id `a1a1…` passes the pattern test, fails membership, and
is 301-redirected to the domain root. -/
theorem c10_witness :
    isHex32 "A1A1A1A1A1A1A1A1A1A1A1A1A1A1A1A1" = true ∧
    cfgExample.pagesOf.contains "A1A1A1A1A1A1A1A1A1A1A1A1A1A1A1A1" = false ∧
    fetchAndApply "ex.com" "GET" "/A1A1A1A1A1A1A1A1A1A1A1A1A1A1A1A1" none none none
        (some cfgExample) =
      .response (redirectResponse ("https://" ++ cfgExample.MY_DOMAIN ++ "/")) := by
  have h := c10_case_variant_redirect cfgExample "ex.com" "GET"
    "a1a1a1a1a1a1a1a1a1a1a1a1a1a1a1a1" "A1A1A1A1A1A1A1A1A1A1A1A1A1A1A1A1"
    none none none (by decide) (by decide) (by decide) (by decide) (by decide)
    (by decide) (by decide)
  exact ⟨h.1, h.2.1, h.2.2.trans (by decide)⟩

/-- C10 counterexample: a configuration listing both letter-case forms of the
same page id.  The uppercase request segment is a case-variant of the
configured lowercase id, yet it passes the case-sensitive membership test and
is served as HTML content — it is neither excluded from `pages` nor redirected
to the root. -/
theorem c10_cex_both_cases_configured :
    lowerId ∈ cfgBothCases.pagesOf ∧ eqIgnoreCase upperId.data lowerId.data = true ∧
    upperId ≠ lowerId ∧
    ¬ (cfgBothCases.pagesOf.contains upperId = false ∧
       fetchAndApply "ex.com" "GET" ("/" ++ upperId) none none none (some cfgBothCases) =
         .response (redirectResponse "https://ex.com/")) := by decide

end NotionWorker
